import Mathlib

/-!
Verification of the reasoning-engine conversational workflow planner.

This file shallowly embeds the core data model and operations of the
`reasoning_engine_pro` package (workflow schemas, structural validation,
the orchestrator's clarification state machine, the edge-connection and
LLM block validators' deterministic post-processing, token estimation,
the error mapper, and the storage backends' `get_history`) and proves
the specification's claims about them.

Conventions of the embedding:
* Python `Optional[str]` becomes `Option String`; Python dictionaries of
  known shape become structures; Python exceptions become `Except` /
  explicit error values; timestamps become `Nat` ticks.
* Functions are translated line-by-line from the Python source files
  named in each definition's doc comment.
-/

namespace ReasoningEngine

/-! ## Data model: `core/schemas/messages.py` and `core/enums.py` -/

/-- `MessageRole` from `core/enums.py`. -/
inductive MessageRole
  | SYSTEM
  | USER
  | ASSISTANT
  | TOOL
deriving DecidableEq, Repr

/-- The string `.value` of each role member. -/
def MessageRole.value : MessageRole → String
  | .SYSTEM => "system"
  | .USER => "user"
  | .ASSISTANT => "assistant"
  | .TOOL => "tool"

/-- `ChatMessage` from `core/schemas/messages.py`, restricted to the fields
the verified operations read (`role`, `content`). -/
structure ChatMessage where
  role : MessageRole
  content : Option String := none
deriving DecidableEq, Repr

/-- `ConversationStatus` from `core/enums.py`. -/
inductive ConversationStatus
  | ACTIVE
  | AWAITING_CLARIFICATION
  | COMPLETED
  | ERROR
deriving DecidableEq, Repr

/-- `ClarificationState` from `core/schemas/messages.py` (timestamps as ticks). -/
structure ClarificationState where
  clarification_id : String
  questions : List String
  response : Option String := none
  responded_at : Option Nat := none
deriving DecidableEq, Repr

/-- `ConversationState` from `core/schemas/messages.py`, restricted to the
fields the orchestrator operations below read or write. -/
structure ConversationState where
  conversation_id : String
  status : ConversationStatus := .ACTIVE
  pending_clarification : Option ClarificationState := none
deriving DecidableEq, Repr

/-! ## Data model: `core/schemas/workflow.py` -/

/-- `Input` from `core/schemas/workflow.py`. -/
structure Input where
  Name : String
  ReferencedOutputVariableName : Option String := none
  StaticValue : Option String := none
  Description : Option String := none
deriving DecidableEq, Repr

/-- `Output` from `core/schemas/workflow.py`. -/
structure Output where
  Name : String
  OutputVariableName : String
  Description : Option String := none
deriving DecidableEq, Repr

/-- `Block` from `core/schemas/workflow.py`. -/
structure Block where
  BlockId : String
  Name : String
  ActionCode : String
  Inputs : List Input := []
  Outputs : List Output := []
deriving DecidableEq, Repr

/-- `Edge` from `core/schemas/workflow.py`. -/
structure Edge where
  EdgeID : String
  From : String
  To : String
  EdgeCondition : Option String := none
deriving DecidableEq, Repr

/-- `Workflow` from `core/schemas/workflow.py`. -/
structure Workflow where
  workflow_json : List Block
  edges : List Edge
  job_name : Option String := none
deriving DecidableEq, Repr

/-- Python truthiness of an `Optional[str]`: `None` and `""` are falsy.
Used wherever the source writes `if some_optional_string:`. -/
def optStrTruthy : Option String → Bool
  | none => false
  | some s => s ≠ ""

/-- `Workflow.validate_structure` from `core/schemas/workflow.py` lines 89-127.
Returns the list of structural error strings, in emission order. -/
def Workflow.validate_structure (w : Workflow) : List String :=
  let block_ids := w.workflow_json.map (·.BlockId)
  let start_blocks := w.workflow_json.filter (fun b => b.ActionCode == "Start")
  let startErrors :=
    if start_blocks.length == 0 then ["Workflow must have a Start block"]
    else if start_blocks.length > 1 then ["Workflow must have exactly one Start block"]
    else []
  let edgeErrors := w.edges.foldl (fun acc e =>
    acc
      ++ (if block_ids.contains e.From then []
          else ["Edge " ++ e.EdgeID ++ " references non-existent block: " ++ e.From])
      ++ (if block_ids.contains e.To then []
          else ["Edge " ++ e.EdgeID ++ " references non-existent block: " ++ e.To])) []
  let output_vars := w.workflow_json.foldl
    (fun acc b => acc ++ b.Outputs.map (·.OutputVariableName)) []
  let refErrors := w.workflow_json.foldl (fun acc b =>
    acc ++ b.Inputs.foldl (fun acc2 inp =>
      acc2 ++
        (if optStrTruthy inp.ReferencedOutputVariableName then
          match inp.ReferencedOutputVariableName with
          | some r =>
            if output_vars.contains r then []
            else ["Block " ++ b.BlockId ++ " references non-existent output: " ++ r]
          | none => []
        else [])) []) []
  startErrors ++ edgeErrors ++ refErrors

/-- `SubmitWorkflowOutput` from `core/schemas/tools.py`. -/
structure SubmitWorkflowOutput where
  status : String
  errors : List String := []
deriving DecidableEq, Repr

/-- `PlannerAgent._handle_submit_workflow` from `agents/planner.py` lines 250-274.
Pydantic parsing of the tool arguments is modelled by the `parsed` argument:
`Except.error msgs` is a `ValidationError` whose per-field messages are `msgs`,
`Except.ok w` is a successful `Workflow.model_validate`. The function is total:
the source catches the only exception `model_validate` raises. -/
def handle_submit_workflow (parsed : Except (List String) Workflow) :
    SubmitWorkflowOutput :=
  match parsed with
  | .error msgs =>
    { status := "needs_revision"
      errors := msgs.map (fun m => "Invalid workflow structure: " ++ m) }
  | .ok w =>
    let structural_errors := w.validate_structure
    if structural_errors.isEmpty then { status := "accepted" }
    else { status := "needs_revision", errors := structural_errors }

/-! ## Error taxonomy: `core/exceptions.py` and `core/error_mapper.py` -/

/-- The exception classes of `core/exceptions.py` (all direct subclasses of
`ReasoningEngineError`), plus `OtherError` for any exception outside the
package's hierarchy (e.g. `RuntimeError`). `BaseReasoningEngineError` is an
exception that is a plain `ReasoningEngineError`, no subclass. -/
inductive ExcKind
  | LLMProviderError
  | ToolExecutionError
  | StorageError
  | ValidationError
  | WorkflowParseError
  | ConversationNotFoundError
  | ClarificationRequiredError
  | MaxConnectionsExceededError
  | BaseReasoningEngineError
  | OtherError (class_name : String)
deriving DecidableEq, Repr

/-- An exception value: its class and its `str(...)` text. -/
structure Exc where
  kind : ExcKind
  message : String
deriving DecidableEq, Repr

/-- Python `type(e).__name__` for the modelled exception classes. -/
def ExcKind.type_name : ExcKind → String
  | .LLMProviderError => "LLMProviderError"
  | .ToolExecutionError => "ToolExecutionError"
  | .StorageError => "StorageError"
  | .ValidationError => "ValidationError"
  | .WorkflowParseError => "WorkflowParseError"
  | .ConversationNotFoundError => "ConversationNotFoundError"
  | .ClarificationRequiredError => "ClarificationRequiredError"
  | .MaxConnectionsExceededError => "MaxConnectionsExceededError"
  | .BaseReasoningEngineError => "ReasoningEngineError"
  | .OtherError n => n

/-- `ErrorMapper.to_client_error` from `core/error_mapper.py` lines 64-77:
first `isinstance` match in `_MAPPING` order; the listed classes are pairwise
unrelated subclasses of `ReasoningEngineError`, so the scan is an exact match
on the class, with the `INTERNAL_ERROR` fallback for everything else. -/
def ErrorMapper.to_client_error (exc : Exc) : String × String :=
  match exc.kind with
  | .LLMProviderError =>
    ("LLM_UNAVAILABLE", "The AI service is temporarily unavailable. Please try again.")
  | .ToolExecutionError =>
    ("TOOL_ERROR", "A search service is temporarily unavailable.")
  | .StorageError =>
    ("STORAGE_ERROR", "A temporary storage issue occurred. Please try again.")
  | .ValidationError =>
    ("VALIDATION_ERROR", "We encountered an issue processing your workflow.")
  | .WorkflowParseError =>
    ("PARSE_ERROR", "We had trouble generating the workflow. Please try rephrasing your request.")
  | .ConversationNotFoundError =>
    ("NOT_FOUND", "Conversation not found.")
  | .ClarificationRequiredError =>
    ("CLARIFICATION_REQUIRED", "Additional information is needed to proceed.")
  | .MaxConnectionsExceededError =>
    ("MAX_CONNECTIONS", "Server is at capacity. Please try again later.")
  | _ =>
    ("INTERNAL_ERROR", "An unexpected error occurred. Please try again.")

/-! ## Orchestrator: `agents/orchestrator.py`

The orchestrator is modelled per conversation: `OrchStorage` is the slice of
the conversation store belonging to one conversation id (its state blob, its
history list, and its saved clarification responses).  Each orchestrator
method becomes a pure transition on that storage; the trailing
`_process_conversation` call (the planner pass, lines 144-199) is outside
these transitions and is modelled only through `handle_error` below, which is
the `except Exception` arm of that pass. -/

/-- One conversation's slice of the conversation store. -/
structure OrchStorage where
  state : Option ConversationState := none
  history : List ChatMessage := []
  clarification_responses : List (String × String) := []
deriving DecidableEq, Repr

/-- The exceptions `handle_clarification_response` raises before mutating
anything. -/
inductive OrchError
  | ConversationNotFoundError (conversation_id : String)
  | ReasoningEngineError (message : String)
deriving DecidableEq, Repr

/-- `ConversationOrchestrator.start_conversation` from `agents/orchestrator.py`
lines 68-95, up to (and excluding) the `_process_conversation` call: builds a
fresh ACTIVE state, saves it, appends the user message.  The source performs
no check on `conversation_id`; there is no failure path. -/
def start_conversation (st : OrchStorage) (conversation_id initial_message : String) :
    OrchStorage :=
  let state : ConversationState :=
    { conversation_id := conversation_id, status := .ACTIVE }
  let user_message : ChatMessage := { role := .USER, content := some initial_message }
  { st with
    state := some state
    history := st.history ++ [user_message] }

/-- `ConversationOrchestrator.handle_clarification_response` from
`agents/orchestrator.py` lines 97-135, up to (and excluding) the
`_process_conversation` call.  Returns the updated storage and `none`, or the
raised error paired with the untouched storage (the source raises before any
write). `now` is the `datetime.now(tz=UTC)` tick. -/
def handle_clarification_response (st : OrchStorage)
    (conversation_id clarification_id response : String) (now : Nat) :
    OrchStorage × Option OrchError :=
  match st.state with
  | none => (st, some (.ConversationNotFoundError conversation_id))
  | some state =>
    match state.pending_clarification with
    | none => (st, some (.ReasoningEngineError "No matching clarification request pending"))
    | some pc =>
      if pc.clarification_id ≠ clarification_id then
        (st, some (.ReasoningEngineError "No matching clarification request pending"))
      else
        let st1 := { st with
          clarification_responses :=
            st.clarification_responses ++ [(clarification_id, response)] }
        let pc' := { pc with response := some response, responded_at := some now }
        let state' := { state with
          pending_clarification := some pc'
          status := .ACTIVE }
        let user_message : ChatMessage :=
          { role := .USER, content := some ("[Clarification Response]\n" ++ response) }
        ({ st1 with
            state := some state'
            history := st1.history ++ [user_message] }, none)

/-- `ConversationOrchestrator.end_conversation` from `agents/orchestrator.py`
lines 137-142: if a state exists, set its status to COMPLETED; nothing else
changes (in particular `pending_clarification` is left in place). -/
def end_conversation (st : OrchStorage) : OrchStorage :=
  match st.state with
  | none => st
  | some state => { st with state := some { state with status := .COMPLETED } }

/-- `ConversationOrchestrator._handle_clarification_request` from
`agents/orchestrator.py` lines 201-224: on a `ClarificationRequiredError`
from the planner, set status AWAITING_CLARIFICATION and overwrite (not
accumulate) the pending clarification record. -/
def handle_clarification_request (st : OrchStorage)
    (clarification_id : String) (questions : List String) : OrchStorage :=
  match st.state with
  | none => st
  | some state =>
    { st with state := some { state with
        status := .AWAITING_CLARIFICATION
        pending_clarification := some
          { clarification_id := clarification_id, questions := questions } } }

/-- `ConversationOrchestrator._handle_error` from `agents/orchestrator.py`
lines 301-324: set status ERROR (when a state exists) and emit an ERROR event
whose code is `type(error).__name__` and whose message is `str(error)`.
Returns the updated storage and the `(error_code, message)` payload passed to
`emit_error` (emitted when an event emitter is configured). -/
def handle_error (st : OrchStorage) (error : Exc) :
    OrchStorage × (String × String) :=
  let st' :=
    match st.state with
    | none => st
    | some state => { st with state := some { state with status := .ERROR } }
  (st', (error.kind.type_name, error.message))

/-- `ConversationOrchestrator._handle_workflow_output`'s final status update,
`agents/orchestrator.py` lines 295-299: on success set status COMPLETED;
`pending_clarification` is left in place. -/
def complete_after_workflow (st : OrchStorage) : OrchStorage :=
  match st.state with
  | none => st
  | some state => { st with state := some { state with status := .COMPLETED } }

/-! ## Token estimation: `core/utils/token_estimation.py` -/

/-- `estimate_tokens` from `core/utils/token_estimation.py` lines 6-9:
`max(1, sum(len(content or "") + len(role.value) + 10) // 4)`. -/
def estimate_tokens (messages : List ChatMessage) : Nat :=
  let total := messages.foldl
    (fun t m => t + (m.content.getD "").length + m.role.value.length + 10) 0
  max 1 (total / 4)

/-- `should_summarize` from `core/utils/token_estimation.py` lines 12-14. -/
def should_summarize (messages : List ChatMessage) (limit : Nat) : Bool :=
  estimate_tokens messages > limit

/-- The planner's summarization trigger, `agents/planner.py` lines 98-101:
`if self._summarizer and should_summarize(full_messages, self._token_limit)`. -/
def planner_triggers_summarization (has_summarizer : Bool)
    (full_messages : List ChatMessage) (token_limit : Nat) : Bool :=
  has_summarizer && should_summarize full_messages token_limit

/-! ## Storage backends: `services/storage/memory.py` and `redis.py` -/

/-- Python list slice `l[i:]` (start only, possibly negative). -/
def pySliceFrom {α : Type} (l : List α) (i : Int) : List α :=
  if i < 0 then l.drop ((l.length : Int) + i).toNat
  else l.drop i.toNat

/-- `InMemoryStorage.get_history` from `services/storage/memory.py` lines
44-56: empty when expired; otherwise `messages[-max_messages:]` under
`if max_messages:` (Python truthiness: `None` and `0` skip the slice). -/
def memory_get_history (expired : Bool) (stored : List ChatMessage)
    (max_messages : Option Int) : List ChatMessage :=
  if expired then []
  else
    match max_messages with
    | some m => if m ≠ 0 then pySliceFrom stored (-m) else stored
    | none => stored

/-- Redis `LRANGE key start stop` on the stored list: negative indices count
from the end and are clamped to the list. -/
def redisLrange {α : Type} (l : List α) (start stop : Int) : List α :=
  let n : Int := l.length
  let s : Int := if start < 0 then max 0 (n + start) else start
  let e0 : Int := if stop < 0 then n + stop else stop
  let e : Int := min e0 (n - 1)
  if s > e then [] else (l.drop s.toNat).take (e - s + 1).toNat

/-- `RedisStorage.get_history` from `services/storage/redis.py` lines 76-100:
`lrange(key, -max_messages, -1)` under `if max_messages:` (truthiness again),
else `lrange(key, 0, -1)`; deserialization is the identity here. -/
def redis_get_history (stored : List ChatMessage)
    (max_messages : Option Int) : List ChatMessage :=
  match max_messages with
  | some m => if m ≠ 0 then redisLrange stored (-m) (-1) else redisLrange stored 0 (-1)
  | none => redisLrange stored 0 (-1)

/-! ## WebSocket payload guard: `api/websocket/handlers.py` -/

/-- The guard at the top of `WebSocketHandler.handle_start_chat`
(`api/websocket/handlers.py` lines 49-83): a missing or empty `chat_id` (and
then a missing or empty `message`) is rejected with an `INVALID_PAYLOAD`
error before the orchestrator is ever called.  Returns the `(code, message)`
of the error event sent, or `none` when the handler proceeds. -/
def start_chat_payload_rejection (chat_id : Option String) (message : String) :
    Option (String × String) :=
  if ¬ optStrTruthy chat_id then some ("INVALID_PAYLOAD", "Missing chat_id")
  else if message = "" then some ("INVALID_PAYLOAD", "Missing message")
  else none

/-! ## Edge-ID helpers shared by the validators -/

/-- Numeric value of a digit sequence (the Python `int(...)` of a string
that `isdigit` accepted). -/
def digitsToNat (cs : List Char) : Nat :=
  cs.foldl (fun n c => n * 10 + (c.toNat - 48)) 0

/-- `eid.startswith("E") and eid[1:].isdigit()` with `int(eid[1:])`, as in
`EdgeConnectionValidator._max_edge_num` and
`LLMBlockValidator._post_process_edges`: a leading character `E`, followed
by a non-empty run of digits (`isdigit` is false on the empty string). -/
def parseEdgeNum (eid : String) : Option Nat :=
  match eid.toList with
  | 'E' :: rest =>
    if rest ≠ [] ∧ rest.all Char.isDigit then some (digitsToNat rest)
    else none
  | _ => none

/-- Max `E\d+` number over a list of edges (0 when none parse), as computed
by both validators. -/
def maxEdgeNum (edges : List Edge) : Nat :=
  edges.foldl (fun m e => max m ((parseEdgeNum e.EdgeID).getD 0)) 0

/-- Python `f"E{n:03d}"`. -/
def formatEdgeId (n : Nat) : String :=
  if n < 10 then "E00" ++ toString n
  else if n < 100 then "E0" ++ toString n
  else "E" ++ toString n

/-! ## Validation results: `core/interfaces/validator.py` -/

/-- `ValidationResult` from `core/interfaces/validator.py`. -/
structure ValidationResult where
  errors : List String := []
  warnings : List String := []
  corrected_workflow : Option Workflow := none
deriving DecidableEq, Repr

/-- `ValidationResult.is_valid`. -/
def ValidationResult.is_valid (r : ValidationResult) : Bool :=
  r.errors.length == 0

/-! ## Edge Connection validator: `agents/validators/edge_connection_validator.py` -/

/-- `EdgeConnectionValidator._ensure_start_block` (lines 68-109): when no
block has ActionCode `Start`, warn, prepend a fresh Start block (id `B000`,
or `B999` when `B000` is taken), and append one edge from it to every block
with no incoming edge, with ids continuing from the maximum `E\d+` seen.
Returns (blocks, edges, warnings). -/
def ensure_start_block (blocks : List Block) (edges : List Edge) :
    List Block × List Edge × List String :=
  if blocks.any (fun b => b.ActionCode == "Start") then (blocks, edges, [])
  else
    let block_ids := blocks.map (·.BlockId)
    let start_id := if block_ids.contains "B000" then "B999" else "B000"
    let start_block : Block :=
      { BlockId := start_id, Name := "Start", ActionCode := "Start" }
    let blocks' := start_block :: blocks
    let targets_with_incoming := edges.map (·.To)
    let entry_blocks := (blocks'.filter (fun b =>
      b.BlockId ≠ start_id ∧ ¬ targets_with_incoming.contains b.BlockId)).map (·.BlockId)
    let step := fun (acc : List Edge × Nat) (bid : String) =>
      (acc.1 ++ [{ EdgeID := formatEdgeId (acc.2 + 1), From := start_id, To := bid }],
       acc.2 + 1)
    let res := entry_blocks.foldl step (edges, maxEdgeNum edges)
    (blocks', res.1, ["Start block was missing — added automatically"])

/-- `EdgeConnectionValidator._deduplicate_edges` (lines 111-126): keep the
first edge of each (From, To) pair, one warning per removed duplicate. -/
def deduplicate_edges (edges : List Edge) : List Edge × List String :=
  let step := fun (acc : List Edge × List (String × String) × List String) (e : Edge) =>
    if acc.2.1.contains (e.From, e.To) then
      (acc.1, acc.2.1,
       acc.2.2 ++ ["Duplicate edge removed: " ++ e.From ++ " -> " ++ e.To])
    else (acc.1 ++ [e], acc.2.1 ++ [(e.From, e.To)], acc.2.2)
  let r := edges.foldl step ([], [], [])
  (r.1, r.2.2)

/-- `EdgeConnectionValidator._remove_self_loops` (lines 128-138). -/
def remove_self_loops (edges : List Edge) : List Edge × List String :=
  edges.foldl (fun acc e =>
    if e.From = e.To then (acc.1, acc.2 ++ ["Self-loop removed: " ++ e.EdgeID])
    else (acc.1 ++ [e], acc.2)) ([], [])

/-- `EdgeConnectionValidator._check_disconnected` (lines 140-158). -/
def check_disconnected (blocks : List Block) (edges : List Edge) : List String :=
  let connected := edges.map (·.From) ++ edges.map (·.To)
  blocks.foldl (fun acc b =>
    if b.ActionCode == "Start" then acc
    else if connected.contains b.BlockId then acc
    else acc ++ ["Block " ++ b.BlockId ++ " (" ++ b.Name ++ ") has no edge connections"]) []

/-- `EdgeConnectionValidator.validate` (lines 32-66): the four steps in
order, then the corrected workflow (every produced edge dict re-validates
successfully, so `Edge.model_validate` is the identity here). -/
def edge_connection_validate (w : Workflow) : ValidationResult :=
  let r1 := ensure_start_block w.workflow_json w.edges
  let blocks := r1.1
  let r2 := deduplicate_edges r1.2.1
  let r3 := remove_self_loops r2.1
  let warnDisc := check_disconnected blocks r3.1
  { errors := []
    warnings := r1.2.2 ++ r2.2 ++ r3.2 ++ warnDisc
    corrected_workflow :=
      some { workflow_json := blocks, edges := r3.1, job_name := w.job_name } }

/-! ## LLM Block validator: `agents/validators/llm_block_validator.py`

The per-block LLM calls are nondeterministic I/O; what the code does with
their outcomes is deterministic.  `_BlockValidationResult` and the
aggregation and edge post-processing below are translated from the source;
the list `results` stands for `asyncio.gather(*tasks,
return_exceptions=True)`, whose element `i` is the outcome of
`_validate_one(i)` (an exception, or a `_BlockValidationResult` whose
`index` field was set to `i`). -/

/-- `_BlockValidationResult` from `agents/validators/llm_block_validator.py`
lines 33-40 (edge instructions as (From, To) pairs). -/
structure BlockValidationRes where
  index : Nat
  block : Block
  edges_to_add : List (String × String) := []
  edges_to_remove : List (String × String) := []
deriving DecidableEq, Repr

/-- One step of the aggregation loop of `LLMBlockValidator.validate` (lines
103-110): an exception becomes a warning, a success overwrites the block at
its own `index` and contributes its edge instructions. -/
def agg_step
    (acc : List Block × List String × List (String × String) × List (String × String))
    (r : Except String BlockValidationRes) :
    List Block × List String × List (String × String) × List (String × String) :=
  match r with
  | .error msg => (acc.1, acc.2.1 ++ ["Block validation failed: " ++ msg], acc.2.2)
  | .ok br =>
    (acc.1.set br.index br.block, acc.2.1,
     acc.2.2.1 ++ br.edges_to_add, acc.2.2.2 ++ br.edges_to_remove)

/-- The aggregation loop of `LLMBlockValidator.validate` (lines 98-110):
start from the input block list (`corrected_blocks = list(blocks)`) and fold
`agg_step` over the gathered results. Returns (blocks, warnings,
edges_to_add, edges_to_remove). -/
def aggregate_block_results (blocks : List Block)
    (results : List (Except String BlockValidationRes)) :
    List Block × List String × List (String × String) × List (String × String) :=
  results.foldl agg_step (blocks, [], [], [])

/-- The block component of `agg_step` alone. -/
def set_step (bs : List Block) (r : Except String BlockValidationRes) : List Block :=
  match r with
  | .error _ => bs
  | .ok br => bs.set br.index br.block

/-- The warning component of `agg_step` alone. -/
def warn_step (ws : List String) (r : Except String BlockValidationRes) : List String :=
  match r with
  | .error msg => ws ++ ["Block validation failed: " ++ msg]
  | .ok _ => ws

/-- `LLMBlockValidator._post_process_edges` (lines 481-522): drop self-loops
from the original edges, drop edges whose (From, To) is in the remove set,
then append each addition unless it duplicates an existing pair (or one
added before it) or is a self-loop, numbering fresh ids from the maximum
`E\d+` among the surviving edges. -/
def post_process_edges (original_edges : List Edge)
    (edges_to_add edges_to_remove : List (String × String)) : List Edge :=
  let edges := original_edges.filter (fun e => e.From ≠ e.To)
  let remove_set := edges_to_remove
  let edges := edges.filter (fun e => ¬ remove_set.contains (e.From, e.To))
  let max_edge_num := maxEdgeNum edges
  let existing_pairs := edges.map (fun e => (e.From, e.To))
  let step := fun (acc : List Edge × List (String × String) × Nat) (p : String × String) =>
    if acc.2.1.contains p then acc
    else if p.1 = p.2 then acc
    else
      (acc.1 ++ [{ EdgeID := formatEdgeId (acc.2.2 + 1), From := p.1, To := p.2 }],
       acc.2.1 ++ [p], acc.2.2 + 1)
  (edges_to_add.foldl step (edges, existing_pairs, max_edge_num)).1

/-- `LLMBlockValidator.validate` (lines 71-131), as a function of the
gathered per-block outcomes: empty workflow returns the bare result
(`corrected_workflow = None`); otherwise aggregate, post-process edges, and
assemble the corrected workflow (all produced edge dicts re-validate). -/
def llm_block_validate (w : Workflow)
    (results : List (Except String BlockValidationRes)) : ValidationResult :=
  if w.workflow_json.isEmpty then {}
  else
    let agg := aggregate_block_results w.workflow_json results
    let final_edges := post_process_edges w.edges agg.2.2.1 agg.2.2.2
    { errors := []
      warnings := agg.2.1
      corrected_workflow :=
        some { workflow_json := agg.1, edges := final_edges, job_name := w.job_name } }

/-! ## Spec-level definitions

These follow the wording of the specification's claims (not the source) and
are compared with the source-translated definitions above. -/

/-- Invariant I1 as the spec states it: BlockIds unique and EdgeIds unique. -/
def spec_I1 (w : Workflow) : Prop :=
  (w.workflow_json.map (·.BlockId)).Nodup ∧ (w.edges.map (·.EdgeID)).Nodup

instance (w : Workflow) : Decidable (spec_I1 w) := by
  unfold spec_I1; infer_instance

/-- Invariant I2 as the spec states it: every edge endpoint references an
existing BlockId. -/
def spec_I2 (w : Workflow) : Prop :=
  ∀ e ∈ w.edges,
    e.From ∈ w.workflow_json.map (·.BlockId) ∧ e.To ∈ w.workflow_json.map (·.BlockId)

/-- The output variable names produced by the blocks of a workflow. -/
def producedOutputVars (w : Workflow) : List String :=
  w.workflow_json.foldl (fun acc b => acc ++ b.Outputs.map (·.OutputVariableName)) []

/-- What `validate_structure` actually enforces about Start blocks: exactly
one block with ActionCode `Start` (no condition on incoming edges). -/
def spec_one_start (w : Workflow) : Prop :=
  (w.workflow_json.filter (fun b => b.ActionCode == "Start")).length = 1

/-- What `validate_structure` actually enforces about references: every
non-null, non-empty `ReferencedOutputVariableName` is produced by some
block. -/
def spec_refs_produced (w : Workflow) : Prop :=
  ∀ b ∈ w.workflow_json, ∀ inp ∈ b.Inputs, ∀ r,
    inp.ReferencedOutputVariableName = some r → r ≠ "" → r ∈ producedOutputVars w

/-- The claim's token-estimate formula: `max(1, (total content characters +
10 × message count) / 4)` — without the per-message role-name length the
source adds. -/
def claim_estimate_tokens (messages : List ChatMessage) : Nat :=
  max 1 ((messages.foldl (fun t m => t + (m.content.getD "").length) 0
    + 10 * messages.length) / 4)

/-! ## Claim C2 -/

/-- C2: code_bug evidence.  When an `LLMProviderError` escapes a processing
pass, `_handle_error` does set the state to ERROR, but the ERROR event it
emits carries `type(error).__name__` and the raw `str(error)` — not the
`(LLM_UNAVAILABLE, fixed sanitized message)` pair that
`ErrorMapper.to_client_error` (present and unit-tested in the repository,
but never called on this path) would produce. -/
theorem C2_handle_error_bypasses_error_mapper :
    (handle_error
        { state := some { conversation_id := "c1", status := .ACTIVE } }
        { kind := .LLMProviderError, message := "Connection refused by upstream" }).1.state
      = some { conversation_id := "c1", status := .ERROR } ∧
    (handle_error
        { state := some { conversation_id := "c1", status := .ACTIVE } }
        { kind := .LLMProviderError, message := "Connection refused by upstream" }).2
      = ("LLMProviderError", "Connection refused by upstream") ∧
    ErrorMapper.to_client_error
        { kind := .LLMProviderError, message := "Connection refused by upstream" }
      = ("LLM_UNAVAILABLE", "The AI service is temporarily unavailable. Please try again.") ∧
    (handle_error
        { state := some { conversation_id := "c1", status := .ACTIVE } }
        { kind := .LLMProviderError, message := "Connection refused by upstream" }).2
      ≠ ErrorMapper.to_client_error
          { kind := .LLMProviderError, message := "Connection refused by upstream" } := by
  refine ⟨rfl, rfl, rfl, ?_⟩
  decide

/-! ## Claim C3 -/

/-- C3: `handle_clarification_response` raises `ConversationNotFound` when no
state exists; raises a domain error — leaving storage untouched — when no
clarification is pending or the pending id differs; and accepts (persisting
the response, setting ACTIVE, appending the prefixed user message) exactly
when the pending id matches. -/
theorem C3_clarification_response_characterization
    (st : OrchStorage) (cid k r : String) (now : Nat) :
    ((handle_clarification_response st cid k r now).2 = none ↔
      ∃ s pc, st.state = some s ∧ s.pending_clarification = some pc ∧
        pc.clarification_id = k) ∧
    (st.state = none →
      handle_clarification_response st cid k r now
        = (st, some (.ConversationNotFoundError cid))) ∧
    (∀ e, (handle_clarification_response st cid k r now).2 = some e →
      (handle_clarification_response st cid k r now).1 = st ∧
      (st.state ≠ none → e = .ReasoningEngineError "No matching clarification request pending")) ∧
    (∀ s pc, st.state = some s → s.pending_clarification = some pc →
      pc.clarification_id = k →
      (handle_clarification_response st cid k r now).1.history
        = st.history ++ [{ role := .USER, content := some ("[Clarification Response]\n" ++ r) }] ∧
      (handle_clarification_response st cid k r now).1.clarification_responses
        = st.clarification_responses ++ [(k, r)] ∧
      (handle_clarification_response st cid k r now).1.state
        = some { (s : ConversationState) with
            status := .ACTIVE
            pending_clarification :=
              some { pc with response := some r, responded_at := some now } }) := by
  obtain ⟨sst, hist, resps⟩ := st
  rcases sst with _ | ⟨scid, sstatus, spending⟩
  · refine ⟨by simp [handle_clarification_response], fun _ => rfl, ?_, ?_⟩
    · intro e _
      exact ⟨rfl, fun hne => absurd rfl hne⟩
    · intro s pc hs
      simp at hs
  · rcases spending with _ | pc
    · refine ⟨by simp [handle_clarification_response], ?_, ?_, ?_⟩
      · intro h; simp at h
      · intro e he
        simp [handle_clarification_response] at he
        subst he
        exact ⟨rfl, fun _ => rfl⟩
      · intro s' pc' hs' hpc'
        simp at hs'
        subst hs'
        simp at hpc'
    · by_cases hk : pc.clarification_id = k
      · refine ⟨by simp [handle_clarification_response, hk], ?_, ?_, ?_⟩
        · intro h; simp at h
        · intro e he
          simp [handle_clarification_response, hk] at he
        · intro s' pc' hs' hpc' hk'
          simp at hs'
          subst hs'
          simp at hpc'
          subst hpc'
          simp [handle_clarification_response, hk]
      · refine ⟨by simp [handle_clarification_response, hk], ?_, ?_, ?_⟩
        · intro h; simp at h
        · intro e he
          simp [handle_clarification_response, hk] at he
          subst he
          exact ⟨by simp [handle_clarification_response, hk], fun _ => rfl⟩
        · intro s' pc' hs' hpc' hk'
          simp at hs'
          subst hs'
          simp at hpc'
          subst hpc'
          exact absurd hk' hk

/-- The pending clarification of scenario S2 ("Migrate my data"). -/
def pcS2 : ClarificationState :=
  { clarification_id := "k1", questions := ["Which source?", "Which target?"] }

/-- The conversation state of scenario S2 after the clarify tool fired. -/
def stateS2 : ConversationState :=
  { conversation_id := "c1"
    status := .AWAITING_CLARIFICATION
    pending_clarification := some pcS2 }

/-- The storage slice of scenario S2 awaiting a clarification response. -/
def storageS2 : OrchStorage :=
  { state := some stateS2
    history := [{ role := .USER, content := some "Migrate my data" }] }

/-- C3 witness: the characterization applied at the S2/S3 scenario — a
matching response to pending id `k1` is accepted with the expected updates. -/
theorem C3_clarification_response_witness :
    (handle_clarification_response storageS2 "c1" "k1" "Oracle to SAP" 7).1.history
      = [{ role := .USER, content := some "Migrate my data" },
         { role := .USER, content := some "[Clarification Response]\nOracle to SAP" }] := by
  have h := (C3_clarification_response_characterization storageS2
    "c1" "k1" "Oracle to SAP" 7).2.2.2 stateS2 pcS2 rfl rfl rfl
  exact h.1

/-! ## Claim C4 -/

/-- C4 counterexample: a successful clarification response does NOT consume
the pending clarification — a second response carrying the same id `k1` is
accepted again (`.2 = none`), not rejected. -/
theorem C4_second_response_same_id_accepted :
    (handle_clarification_response storageS2 "c1" "k1" "Oracle to SAP" 7).2 = none ∧
    (handle_clarification_response
      (handle_clarification_response storageS2 "c1" "k1" "Oracle to SAP" 7).1
      "c1" "k1" "a different answer" 9).2 = none := by
  exact ⟨rfl, rfl⟩

/-- C4 as amended: a matching response records the response on the pending
clarification but leaves the record (and its id) in place, so a further
response with the same id is accepted again; `end_conversation` and
`_handle_error` change only the status, leaving the pending record in
place; and at most one clarification is ever pending because
`_handle_clarification_request` overwrites the single optional record. -/
theorem C4_pending_clarification_lifecycle
    (st : OrchStorage) (cid k r r2 : String) (now now2 : Nat) (e : Exc)
    (s : ConversationState) (pc : ClarificationState)
    (hs : st.state = some s) (hpc : s.pending_clarification = some pc)
    (hk : pc.clarification_id = k) :
    (∃ s', (handle_clarification_response st cid k r now).1.state = some s' ∧
      s'.pending_clarification
        = some { pc with response := some r, responded_at := some now }) ∧
    (handle_clarification_response
      (handle_clarification_response st cid k r now).1 cid k r2 now2).2 = none ∧
    ((end_conversation st).state.map (·.pending_clarification)
      = st.state.map (·.pending_clarification)) ∧
    ((handle_error st e).1.state.map (·.pending_clarification)
      = st.state.map (·.pending_clarification)) ∧
    (∀ k2 qs, (handle_clarification_request st k2 qs).state.map (·.pending_clarification)
      = some (some { clarification_id := k2, questions := qs })) := by
  obtain ⟨sst, hist, resps⟩ := st
  simp only at hs
  subst hs
  obtain ⟨scid, sstatus, spending⟩ := s
  simp only at hpc
  subst hpc
  subst hk
  refine ⟨?_, ?_, ?_, ?_, ?_⟩
  · exact ⟨{ conversation_id := scid, status := .ACTIVE, pending_clarification := some { pc with response := some r, responded_at := some now } }, by simp [handle_clarification_response], rfl⟩
  · simp [handle_clarification_response]
  · simp [end_conversation]
  · simp [handle_error]
  · intro k2 qs
    simp [handle_clarification_request]

/-- C4 witness: the lifecycle theorem applied at the S2 scenario. -/
theorem C4_pending_clarification_lifecycle_witness :
    (handle_clarification_response
      (handle_clarification_response storageS2 "c1" "k1" "Oracle to SAP" 7).1
      "c1" "k1" "a second answer" 9).2 = none := by
  have h := C4_pending_clarification_lifecycle storageS2 "c1" "k1" "Oracle to SAP"
    "a second answer" 7 9 { kind := .StorageError, message := "x" }
    stateS2 pcS2 rfl rfl rfl
  exact h.2.1

/-! ## Claim C8 -/

/-- A single user message with empty content. -/
def msgEmptyUser : ChatMessage := { role := .USER, content := some "" }

/-- C8 counterexample: the source's estimate adds `len(role.value)` per
message, which the claim's formula omits.  On one user message with empty
content the code estimates `(0 + 4 + 10) // 4 = 3` tokens, the claim's
formula gives `(0 + 10) / 4 = 2`; with limit 2 the code triggers
summarization while the claim's formula says it must not. -/
theorem C8_estimate_formula_differs :
    estimate_tokens [msgEmptyUser] = 3 ∧
    claim_estimate_tokens [msgEmptyUser] = 2 ∧
    estimate_tokens [msgEmptyUser] ≠ claim_estimate_tokens [msgEmptyUser] ∧
    should_summarize [msgEmptyUser] 2 = true ∧
    ¬ (claim_estimate_tokens [msgEmptyUser] > 2) := by
  refine ⟨rfl, rfl, by decide, rfl, by decide⟩

/-- Folding the per-message totals of `estimate_tokens` equals the sum of the
content lengths, the role-name lengths, and 10 per message. -/
theorem estimate_fold_closed_form (l : List ChatMessage) (init : Nat) :
    l.foldl (fun t m => t + (m.content.getD "").length + m.role.value.length + 10) init
      = init + (l.map (fun m => (m.content.getD "").length)).sum
        + (l.map (fun m => m.role.value.length)).sum + 10 * l.length := by
  induction l generalizing init with
  | nil => simp
  | cons a t ih =>
    simp only [List.foldl_cons, List.map_cons, List.sum_cons, List.length_cons, ih]
    ring

/-- C8 as amended: the token estimate the planner uses equals
`max(1, (total content characters + total role-name characters +
10 × message count) / 4)`, and (with a summarizer installed) summarization
is triggered exactly when this estimate exceeds the configured limit. -/
theorem C8_estimate_and_trigger (messages : List ChatMessage) (limit : Nat)
    (has_summarizer : Bool) :
    estimate_tokens messages
      = max 1 (((messages.map (fun m => (m.content.getD "").length)).sum
          + (messages.map (fun m => m.role.value.length)).sum
          + 10 * messages.length) / 4) ∧
    planner_triggers_summarization has_summarizer messages limit
      = (has_summarizer && decide (estimate_tokens messages > limit)) := by
  constructor
  · show max 1 _ = _
    rw [estimate_fold_closed_form]
    congr 1
    omega
  · rfl

/-! ## Claim C9 -/

/-- C9 counterexample: `start_conversation` performs no emptiness check — for
the empty conversation id it persists a fresh ACTIVE state and appends the
user message exactly as for any other id, refuting "fails if id is empty". -/
theorem C9_empty_id_accepted :
    (start_conversation {} "" "Create a workflow").state
      = some { conversation_id := "", status := .ACTIVE } ∧
    (start_conversation {} "" "Create a workflow").history
      = [{ role := .USER, content := some "Create a workflow" }] :=
  ⟨rfl, rfl⟩

/-- C9 as amended: the orchestrator's `start_conversation` itself never
rejects an id — it persists the ACTIVE state and appends the message for
every id, empty or not, and then always runs a processing pass; the empty-id
rejection lives one layer up, in the WebSocket `start_chat` handler, which
answers `INVALID_PAYLOAD` for a missing or empty `chat_id` before the
orchestrator is called. -/
theorem C9_start_conversation_never_fails (st : OrchStorage) (cid msg : String) :
    (start_conversation st cid msg).state
      = some { conversation_id := cid, status := .ACTIVE } ∧
    (start_conversation st cid msg).history
      = st.history ++ [{ role := .USER, content := some msg }] ∧
    start_chat_payload_rejection (some "") msg
      = some ("INVALID_PAYLOAD", "Missing chat_id") ∧
    start_chat_payload_rejection none msg
      = some ("INVALID_PAYLOAD", "Missing chat_id") :=
  ⟨rfl, rfl, rfl, rfl⟩

/-! ## Claim C10 -/

/-- Redis `LRANGE key 0 -1` returns the whole list. -/
theorem redisLrange_full {α : Type} (l : List α) : redisLrange l 0 (-1) = l := by
  unfold redisLrange
  simp only [if_neg (by omega : ¬ ((0:Int) < 0)), if_pos (by omega : ((-1):Int) < 0)]
  rcases l with _ | ⟨a, t⟩
  · rfl
  · split_ifs with h
    · exfalso
      simp only [inf_eq_min, List.length_cons] at h
      push_cast at h
      omega
    · simp only [inf_eq_min, List.length_cons, Int.toNat_zero, List.drop_zero]
      have hl : ((min ((((t.length + 1 : Nat)) : Int) + -1) ((((t.length + 1 : Nat)) : Int) - 1))
          - 0 + 1).toNat = t.length + 1 := by
        push_cast
        omega
      rw [hl, ← List.length_cons a t]
      exact List.take_length _

/-- C10: with `max_messages = 0`, both `InMemoryStorage.get_history` and
`RedisStorage.get_history` return the entire stored history rather than zero
messages — the "most recent N" slice is applied only for truthy values, and
omitting the argument also returns everything. -/
theorem C10_get_history_zero_returns_all (stored : List ChatMessage)
    (h : stored ≠ []) :
    memory_get_history false stored (some 0) = stored ∧
    redis_get_history stored (some 0) = stored ∧
    memory_get_history false stored (some 0) ≠ [] ∧
    memory_get_history false stored none = stored ∧
    redis_get_history stored none = stored := by
  refine ⟨rfl, ?_, ?_, rfl, ?_⟩
  · simp [redis_get_history, redisLrange_full]
  · simpa using h
  · simp [redis_get_history, redisLrange_full]

/-- C10 witness: a one-message history is returned whole at
`max_messages = 0` on both backends. -/
theorem C10_get_history_zero_witness :
    memory_get_history false [msgEmptyUser] (some 0) = [msgEmptyUser] ∧
    redis_get_history [msgEmptyUser] (some 0) = [msgEmptyUser] := by
  have h := C10_get_history_zero_returns_all [msgEmptyUser] (by simp)
  exact ⟨h.1, h.2.1⟩

/-! ## Claim C1 -/

/-- Folding `acc ++ f x` over a list is empty iff the seed and every
contribution are empty. -/
theorem foldl_append_eq_nil_iff {α β : Type} (f : α → List β) (l : List α)
    (init : List β) :
    l.foldl (fun acc x => acc ++ f x) init = [] ↔
      init = [] ∧ ∀ x ∈ l, f x = [] := by
  induction l generalizing init with
  | nil => simp
  | cons a t ih =>
    simp only [List.foldl_cons, ih, List.append_eq_nil, List.mem_cons]
    constructor
    · rintro ⟨⟨h1, h2⟩, h3⟩
      exact ⟨h1, fun x hx => hx.elim (fun he => he ▸ h2) (h3 x)⟩
    · rintro ⟨h1, h2⟩
      exact ⟨⟨h1, h2 a (Or.inl rfl)⟩, fun x hx => h2 x (Or.inr hx)⟩

/-- Folding `acc ++ f x ++ g x` over a list is empty iff the seed and every
contribution are empty. -/
theorem foldl_append2_eq_nil_iff {α β : Type} (f g : α → List β) (l : List α)
    (init : List β) :
    l.foldl (fun acc x => acc ++ f x ++ g x) init = [] ↔
      init = [] ∧ ∀ x ∈ l, f x = [] ∧ g x = [] := by
  induction l generalizing init with
  | nil => simp
  | cons a t ih =>
    simp only [List.foldl_cons, ih, List.append_eq_nil, List.mem_cons]
    constructor
    · rintro ⟨⟨⟨h1, h2⟩, h2'⟩, h3⟩
      exact ⟨h1, fun x hx => hx.elim (fun he => he ▸ ⟨h2, h2'⟩) (h3 x)⟩
    · rintro ⟨h1, h2⟩
      exact ⟨⟨⟨h1, (h2 a (Or.inl rfl)).1⟩, (h2 a (Or.inl rfl)).2⟩,
        fun x hx => h2 x (Or.inr hx)⟩

/-- `validate_structure` returns no errors exactly when the workflow has
exactly one Start block, every edge endpoint references an existing block,
and every truthy input reference names a produced output variable. -/
theorem validate_structure_eq_nil_iff (w : Workflow) :
    w.validate_structure = [] ↔
      spec_one_start w ∧ spec_I2 w ∧ spec_refs_produced w := by
  unfold Workflow.validate_structure
  simp only [List.append_eq_nil]
  constructor
  · rintro ⟨⟨hs, he⟩, hr⟩
    refine ⟨?_, ?_, ?_⟩
    · unfold spec_one_start
      split_ifs at hs with h1 h2
      simp only [beq_iff_eq] at h1
      omega
    · intro e hee
      obtain ⟨h2a, h2b⟩ := ((foldl_append2_eq_nil_iff _ _ w.edges []).mp he).2 e hee
      constructor
      · by_cases hc : (w.workflow_json.map (·.BlockId)).contains e.From = true
        · exact (List.elem_iff).mp hc
        · rw [if_neg hc] at h2a
          exact absurd h2a (List.cons_ne_nil _ _)
      · by_cases hc : (w.workflow_json.map (·.BlockId)).contains e.To = true
        · exact (List.elem_iff).mp hc
        · rw [if_neg hc] at h2b
          exact absurd h2b (List.cons_ne_nil _ _)
    · intro b hb inp hinp r hro hrne
      have h4 := ((foldl_append_eq_nil_iff _ w.workflow_json []).mp hr).2 b hb
      have hginp := ((foldl_append_eq_nil_iff _ b.Inputs []).mp h4).2 inp hinp
      rw [hro, if_pos (show optStrTruthy (some r) = true by
        simp [optStrTruthy, hrne])] at hginp
      have hginp' : (if (producedOutputVars w).contains r = true then ([] : List String)
          else ["Block " ++ b.BlockId ++ " references non-existent output: " ++ r])
          = [] := hginp
      by_cases hc : (producedOutputVars w).contains r = true
      · exact (List.elem_iff).mp hc
      · rw [if_neg hc] at hginp'
        exact absurd hginp' (List.cons_ne_nil _ _)
  · rintro ⟨h1, h2, h3⟩
    refine ⟨⟨?_, ?_⟩, ?_⟩
    · unfold spec_one_start at h1
      split_ifs with hb1 hb2
      · exfalso
        simp only [beq_iff_eq] at hb1
        omega
      · exfalso
        omega
      · rfl
    · rw [foldl_append2_eq_nil_iff]
      refine ⟨rfl, fun e he => ?_⟩
      have := h2 e he
      constructor
      · rw [if_pos ((List.elem_iff).mpr this.1)]
      · rw [if_pos ((List.elem_iff).mpr this.2)]
    · rw [foldl_append_eq_nil_iff]
      refine ⟨rfl, fun b hb => ?_⟩
      rw [foldl_append_eq_nil_iff]
      refine ⟨rfl, fun inp hinp => ?_⟩
      rcases hro : inp.ReferencedOutputVariableName with _ | r
      · rfl
      · by_cases hrne : r = ""
        · subst hrne
          rfl
        · have hmem := h3 b hb inp hinp r hro hrne
          have hc : ((w.workflow_json.foldl
              (fun acc b => acc ++ b.Outputs.map (·.OutputVariableName)) []).contains r)
              = true := (List.elem_iff).mpr hmem
          rw [if_pos (show optStrTruthy (some r) = true by
            simp [optStrTruthy, hrne])]
          exact if_pos hc

/-- A workflow with two blocks sharing BlockId `B001` (one of them Start). -/
def wDupIds : Workflow :=
  { workflow_json :=
      [{ BlockId := "B001", Name := "Start", ActionCode := "Start" },
       { BlockId := "B001", Name := "Export", ActionCode := "ExportConfigurations" }]
    edges := [] }

/-- C1 counterexample: a workflow with duplicate BlockIds — violating
invariant I1 — is nevertheless `accepted` by `_handle_submit_workflow`,
because `validate_structure` never checks BlockId or EdgeId uniqueness. -/
theorem C1_accepts_duplicate_block_ids :
    (handle_submit_workflow (.ok wDupIds)).status = "accepted" ∧ ¬ spec_I1 wDupIds := by
  exact ⟨rfl, by decide⟩

/-- C1 as amended: `_handle_submit_workflow` never raises and returns
`accepted` exactly when parsing succeeded and the parsed workflow has
exactly one Start block (incoming edges to it are not checked), every edge
endpoint references an existing BlockId, and every non-empty referenced
output variable is produced by some block; BlockId/EdgeId uniqueness (I1)
is not checked. -/
theorem C1_submit_workflow_accepted_iff (parsed : Except (List String) Workflow) :
    (handle_submit_workflow parsed).status = "accepted" ↔
      ∃ w, parsed = .ok w ∧ spec_one_start w ∧ spec_I2 w ∧ spec_refs_produced w := by
  rcases parsed with errs | w
  · constructor
    · intro h
      simp [handle_submit_workflow] at h
    · rintro ⟨w, hw, -⟩
      cases hw
  · constructor
    · intro h
      refine ⟨w, rfl, ?_⟩
      rw [← validate_structure_eq_nil_iff]
      by_cases hv : w.validate_structure = []
      · exact hv
      · exfalso
        have : ¬ w.validate_structure.isEmpty := by
          simpa [List.isEmpty_iff] using hv
        simp [handle_submit_workflow, this] at h
    · rintro ⟨w', hw', hspec⟩
      cases hw'
      have hv : w.validate_structure = [] :=
        (validate_structure_eq_nil_iff w).mpr hspec
      simp [handle_submit_workflow, hv]

/-! ## Claim C5 -/

/-- Deduplication of edges by (From, To), keeping the first occurrence —
the operation the claim asserts `_post_process_edges` applies to the
surviving original edges. -/
def dedupByPair (edges : List Edge) : List Edge :=
  (edges.foldl (fun (acc : List Edge × List (String × String)) e =>
    if acc.2.contains (e.From, e.To) then acc
    else (acc.1 ++ [e], acc.2 ++ [(e.From, e.To)])) ([], [])).1

/-- The claim's description of `_post_process_edges`, word for word: strip
self-loops, strip removed pairs, deduplicate the remaining edges by
(From, To), then append the additions. -/
def claim_post_process_edges (original_edges : List Edge)
    (edges_to_add edges_to_remove : List (String × String)) : List Edge :=
  let survivors := ((original_edges.filter (fun e => e.From ≠ e.To)).filter
    (fun e => ¬ edges_to_remove.contains (e.From, e.To)))
  let edges := dedupByPair survivors
  let max_edge_num := maxEdgeNum edges
  let existing_pairs := edges.map (fun e => (e.From, e.To))
  let step := fun (acc : List Edge × List (String × String) × Nat) (p : String × String) =>
    if acc.2.1.contains p then acc
    else if p.1 = p.2 then acc
    else
      (acc.1 ++ [{ EdgeID := formatEdgeId (acc.2.2 + 1), From := p.1, To := p.2 }],
       acc.2.1 ++ [p], acc.2.2 + 1)
  (edges_to_add.foldl step (edges, existing_pairs, max_edge_num)).1

/-- A duplicate pair of edges B001 → B002. -/
def eDupA : Edge := { EdgeID := "E001", From := "B001", To := "B002" }

/-- Second copy of the B001 → B002 edge, under another id. -/
def eDupB : Edge := { EdgeID := "E002", From := "B001", To := "B002" }

/-- C5 counterexample: the source's `_post_process_edges` never deduplicates
the surviving original edges — two copies of B001 → B002 both survive, while
the claim's description (dedup before additions) keeps only the first. -/
theorem C5_survivors_not_deduplicated :
    post_process_edges [eDupA, eDupB] [] [] = [eDupA, eDupB] ∧
    claim_post_process_edges [eDupA, eDupB] [] [] = [eDupA] ∧
    post_process_edges [eDupA, eDupB] [] []
      ≠ claim_post_process_edges [eDupA, eDupB] [] [] := by
  refine ⟨rfl, rfl, by decide⟩

/-- The addition loop of `_post_process_edges`, written as plain recursion:
skip a proposed (From, To) when it duplicates a seen pair or is a self-loop,
otherwise append it under the next fresh id. -/
def spec_add_new_edges (edges : List Edge) (pairs : List (String × String)) (n : Nat) :
    List (String × String) → List Edge
  | [] => edges
  | p :: ps =>
    if pairs.contains p ∨ p.1 = p.2 then spec_add_new_edges edges pairs n ps
    else spec_add_new_edges
      (edges ++ [{ EdgeID := formatEdgeId (n + 1), From := p.1, To := p.2 }])
      (pairs ++ [p]) (n + 1) ps

/-- C5 as amended: the post-processed edge list — self-loops and removed
pairs stripped from the originals, with the surviving edges NOT
deduplicated. -/
def spec_post_process_edges_amended (original_edges : List Edge)
    (edges_to_add edges_to_remove : List (String × String)) : List Edge :=
  let survivors := ((original_edges.filter (fun e => e.From ≠ e.To)).filter
    (fun e => ¬ edges_to_remove.contains (e.From, e.To)))
  spec_add_new_edges survivors (survivors.map (fun e => (e.From, e.To)))
    (maxEdgeNum survivors) edges_to_add

/-- The addition fold of the source agrees with the recursive description. -/
theorem add_fold_eq_spec (ps : List (String × String)) (es : List Edge)
    (pairs : List (String × String)) (n : Nat) :
    (ps.foldl (fun (acc : List Edge × List (String × String) × Nat) p =>
      if acc.2.1.contains p then acc
      else if p.1 = p.2 then acc
      else
        (acc.1 ++ [{ EdgeID := formatEdgeId (acc.2.2 + 1), From := p.1, To := p.2 }],
         acc.2.1 ++ [p], acc.2.2 + 1)) (es, pairs, n)).1
      = spec_add_new_edges es pairs n ps := by
  induction ps generalizing es pairs n with
  | nil => rfl
  | cons p t ih =>
    rw [List.foldl_cons]
    beta_reduce
    by_cases h1 : pairs.contains p = true
    · rw [if_pos h1, ih]
      simp only [spec_add_new_edges]
      rw [if_pos (Or.inl h1)]
    · by_cases h2 : p.1 = p.2
      · rw [if_neg h1, if_pos h2, ih]
        simp only [spec_add_new_edges]
        rw [if_pos (Or.inr h2)]
      · rw [if_neg h1, if_neg h2, ih]
        simp only [spec_add_new_edges]
        rw [if_neg (by tauto)]

/-- Every edge produced by the addition loop is loop-free when the seeds
are. -/
theorem spec_add_new_edges_no_self_loops (ps : List (String × String))
    (es : List Edge) (pairs : List (String × String)) (n : Nat)
    (hes : ∀ e ∈ es, e.From ≠ e.To) :
    ∀ e ∈ spec_add_new_edges es pairs n ps, e.From ≠ e.To := by
  induction ps generalizing es pairs n with
  | nil => exact hes
  | cons p t ih =>
    unfold spec_add_new_edges
    split_ifs with h1
    · exact ih es pairs n hes
    · refine ih _ _ _ ?_
      intro e he
      rcases List.mem_append.mp he with h | h
      · exact hes e h
      · simp only [List.mem_singleton] at h
        subst h
        simp only []
        intro hcontra
        exact (not_or.mp h1).2 hcontra

/-- C5 as amended, proven: `_post_process_edges` equals the amended
description (no dedup of survivors), and its output never contains a
self-loop. -/
theorem C5_post_process_edges_amended (original_edges : List Edge)
    (edges_to_add edges_to_remove : List (String × String)) :
    post_process_edges original_edges edges_to_add edges_to_remove
      = spec_post_process_edges_amended original_edges edges_to_add edges_to_remove ∧
    ∀ e ∈ post_process_edges original_edges edges_to_add edges_to_remove,
      e.From ≠ e.To := by
  have heq : post_process_edges original_edges edges_to_add edges_to_remove
      = spec_post_process_edges_amended original_edges edges_to_add edges_to_remove := by
    unfold post_process_edges spec_post_process_edges_amended
    exact add_fold_eq_spec _ _ _ _
  refine ⟨heq, ?_⟩
  rw [heq]
  unfold spec_post_process_edges_amended
  apply spec_add_new_edges_no_self_loops
  intro e he
  have := (List.mem_filter.mp (List.mem_filter.mp he).1).2
  simpa using this

/-! ## Claim C6 -/

/-- The block component of the aggregation fold is the fold of the block
component. -/
theorem agg_fold_fst (results : List (Except String BlockValidationRes))
    (acc : List Block × List String × List (String × String) × List (String × String)) :
    (results.foldl agg_step acc).1 = results.foldl set_step acc.1 := by
  induction results generalizing acc with
  | nil => rfl
  | cons r t ih =>
    rw [List.foldl_cons, List.foldl_cons, ih]
    cases r <;> rfl

/-- The warning component of the aggregation fold is the fold of the warning
component. -/
theorem agg_fold_warnings (results : List (Except String BlockValidationRes))
    (acc : List Block × List String × List (String × String) × List (String × String)) :
    (results.foldl agg_step acc).2.1 = results.foldl warn_step acc.2.1 := by
  induction results generalizing acc with
  | nil => rfl
  | cons r t ih =>
    rw [List.foldl_cons, List.foldl_cons, ih]
    cases r <;> rfl

/-- Warnings already accumulated survive the rest of the fold. -/
theorem warn_fold_mono (results : List (Except String BlockValidationRes))
    (init : List String) (a : String) (ha : a ∈ init) :
    a ∈ results.foldl warn_step init := by
  induction results generalizing init with
  | nil => exact ha
  | cons r t ih =>
    rw [List.foldl_cons]
    cases r with
    | error msg => exact ih _ (List.mem_append.mpr (Or.inl ha))
    | ok br => exact ih _ ha

/-- Every exception among the gathered results leaves its warning in the
folded warning list. -/
theorem warn_fold_mem (results : List (Except String BlockValidationRes))
    (init : List String) (msg : String) (hm : Except.error msg ∈ results) :
    ("Block validation failed: " ++ msg) ∈ results.foldl warn_step init := by
  induction results generalizing init with
  | nil => cases hm
  | cons r t ih =>
    rw [List.foldl_cons]
    rcases List.mem_cons.mp hm with h | h
    · subst h
      exact warn_fold_mono t _ _ (List.mem_append.mpr (Or.inr (List.mem_singleton.mpr rfl)))
    · exact ih _ h

/-- Folding `set_step` over results whose successful element `i` carries
index `i + o` rewrites exactly the window `[o, o + results.length)` of the
accumulator: length is preserved, positions outside the window are
untouched, a successful result lands at its own position, and a failed one
leaves the original entry. -/
theorem set_fold_characterization (results : List (Except String BlockValidationRes))
    (cur : List Block) (o : Nat)
    (hidx : ∀ i br, results[i]? = some (.ok br) → br.index = i + o)
    (hle : o + results.length ≤ cur.length) :
    (results.foldl set_step cur).length = cur.length ∧
    (∀ j, (j < o ∨ o + results.length ≤ j) →
      (results.foldl set_step cur)[j]? = cur[j]?) ∧
    (∀ i br, results[i]? = some (.ok br) →
      (results.foldl set_step cur)[i + o]? = some br.block) ∧
    (∀ i msg, results[i]? = some (.error msg) →
      (results.foldl set_step cur)[i + o]? = cur[i + o]?) := by
  induction results generalizing cur o with
  | nil =>
    refine ⟨rfl, fun j _ => rfl, fun i br h => ?_, fun i msg h => ?_⟩ <;> simp at h
  | cons r t ih =>
    have hcur' : (set_step cur r).length = cur.length := by
      cases r with
      | error msg => rfl
      | ok br => exact List.length_set ..
    have hidx' : ∀ i br, t[i]? = some (.ok br) → br.index = i + (o + 1) := by
      intro i br h
      have := hidx (i + 1) br (by simpa using h)
      omega
    have hle' : (o + 1) + t.length ≤ (set_step cur r).length := by
      have h9 : (r :: t).length = t.length + 1 := rfl
      omega
    obtain ⟨ihl, iho, ihok, iherr⟩ := ih (set_step cur r) (o + 1) hidx' hle'
    have hout : ∀ j, j ≠ o → (set_step cur r)[j]? = cur[j]? := by
      intro j hj
      cases hr : r with
      | error msg => rfl
      | ok br =>
        have hio : br.index = o := by
          have := hidx 0 br (by simp [hr])
          omega
        simp only [set_step]
        rw [hio]
        exact List.getElem?_set_ne (by omega)
    refine ⟨?_, ?_, ?_, ?_⟩
    · rw [List.foldl_cons, ihl, hcur']
    · intro j hj
      rw [List.foldl_cons]
      have hj' : j < o + 1 ∨ (o + 1) + t.length ≤ j := by
        simp only [List.length_cons] at hj
        omega
      rw [iho j hj']
      have h9 : (r :: t).length = t.length + 1 := rfl
      exact hout j (by omega)
    · intro i br h
      rw [List.foldl_cons]
      cases i with
      | zero =>
        have hr : r = .ok br := by simpa using h
        subst hr
        have hio : br.index = o := by
          have := hidx 0 br (by simp)
          omega
        rw [Nat.zero_add, iho o (Or.inl (by omega))]
        simp only [set_step]
        rw [hio]
        have h9 : (Except.ok br :: t).length = t.length + 1 := rfl
        exact List.getElem?_set_eq (by omega)
      | succ i' =>
        have h' : t[i']? = some (.ok br) := by simpa using h
        have heq : i' + 1 + o = i' + (o + 1) := by omega
        rw [heq]
        exact ihok i' br h'
    · intro i msg h
      rw [List.foldl_cons]
      cases i with
      | zero =>
        have hr : r = .error msg := by simpa using h
        subst hr
        rw [Nat.zero_add]
        exact iho o (Or.inl (by omega))
      | succ i' =>
        have h' : t[i']? = some (.error msg) := by simpa using h
        have heq : i' + 1 + o = i' + (o + 1) := by omega
        rw [heq, iherr i' msg h']
        exact hout (i' + (o + 1)) (by omega)

/-- C6: the LLM Block Validator's corrected workflow has exactly as many
blocks as the input, position `i` holds the validated result for the block
originally at position `i` (no drop, no reorder), a per-block failure
leaves the original block in place and is recorded only as a warning, and
the stage reports no errors. `results` is the `asyncio.gather(...,
return_exceptions=True)` output, whose element `i` is the outcome of
`_validate_one(i)` and therefore carries `index = i` when successful. -/
theorem C6_blocks_positionally_preserved (w : Workflow)
    (results : List (Except String BlockValidationRes))
    (hlen : results.length = w.workflow_json.length)
    (hidx : ∀ (i : Nat) (br : BlockValidationRes),
      results[i]? = some (Except.ok br) → br.index = i)
    (hne : w.workflow_json ≠ []) :
    ∃ w', (llm_block_validate w results).corrected_workflow = some w' ∧
      w'.workflow_json.length = w.workflow_json.length ∧
      (∀ (i : Nat) (br : BlockValidationRes),
        results[i]? = some (Except.ok br) →
        w'.workflow_json[i]? = some br.block) ∧
      (∀ (i : Nat) (msg : String), results[i]? = some (Except.error msg) →
        w'.workflow_json[i]? = w.workflow_json[i]? ∧
        ("Block validation failed: " ++ msg) ∈ (llm_block_validate w results).warnings) ∧
      (llm_block_validate w results).errors = [] := by
  have hne' : w.workflow_json.isEmpty = false := by
    cases hw : w.workflow_json with
    | nil => exact absurd hw hne
    | cons a t => rfl
  have hidx0 : ∀ (i : Nat) (br : BlockValidationRes),
      results[i]? = some (Except.ok br) → br.index = i + 0 := by
    intro i br h
    simpa using hidx i br h
  have hle : 0 + results.length ≤ w.workflow_json.length := by omega
  obtain ⟨hl, _, hok, herr⟩ :=
    set_fold_characterization results w.workflow_json 0 hidx0 hle
  refine ⟨{ workflow_json := (aggregate_block_results w.workflow_json results).1,
            edges := post_process_edges w.edges
              (aggregate_block_results w.workflow_json results).2.2.1
              (aggregate_block_results w.workflow_json results).2.2.2,
            job_name := w.job_name }, ?_, ?_, ?_, ?_, ?_⟩
  · simp [llm_block_validate, hne']
  · rw [show (aggregate_block_results w.workflow_json results).1
        = results.foldl set_step w.workflow_json from agg_fold_fst ..]
    exact hl
  · intro i br h
    rw [show (aggregate_block_results w.workflow_json results).1
        = results.foldl set_step w.workflow_json from agg_fold_fst ..]
    simpa using hok i br h
  · intro i msg h
    constructor
    · rw [show (aggregate_block_results w.workflow_json results).1
          = results.foldl set_step w.workflow_json from agg_fold_fst ..]
      simpa using herr i msg h
    · have hmem : Except.error msg ∈ results := by
        have : results[i]? = some (.error msg) := h
        exact List.getElem?_mem this
      simp only [llm_block_validate, hne', Bool.false_eq_true, if_false]
      rw [show (aggregate_block_results w.workflow_json results).2.1
          = results.foldl warn_step [] from agg_fold_warnings ..]
      exact warn_fold_mem results [] msg hmem
  · simp [llm_block_validate, hne']

/-- A Start block B001 for the C6 witness workflow. -/
def bStart : Block := { BlockId := "B001", Name := "Start", ActionCode := "Start" }

/-- An export block B002 for the C6 witness workflow. -/
def bExport : Block :=
  { BlockId := "B002", Name := "Export", ActionCode := "ExportConfigurations" }

/-- The C6 witness workflow: Start plus one export block. -/
def wC6 : Workflow := { workflow_json := [bStart, bExport], edges := [] }

/-- Gathered outcomes for `wC6`: block 0 validated unchanged, block 1's
validation raised. -/
def resC6 : List (Except String BlockValidationRes) :=
  [Except.ok { index := 0, block := bStart }, Except.error "timeout"]

/-- C6 witness: the positional-preservation theorem applied to a two-block
workflow whose second validation failed. -/
theorem C6_blocks_positionally_preserved_witness :
    ∃ w', (llm_block_validate wC6 resC6).corrected_workflow = some w' ∧
      w'.workflow_json.length = 2 := by
  have hidx : ∀ (i : Nat) (br : BlockValidationRes),
      resC6[i]? = some (Except.ok br) → br.index = i := by
    intro i br h
    rcases i with _ | (_ | n)
    · simp [resC6] at h
      subst h
      rfl
    · simp [resC6] at h
    · simp [resC6] at h
  obtain ⟨w', h1, h2, -⟩ :=
    C6_blocks_positionally_preserved wC6 resC6 rfl hidx (by simp [wC6])
  exact ⟨w', h1, h2.trans rfl⟩

/-! ## Claim C7 -/

/-- The Start-block id the repair stage chooses: `B000`, or `B999` when
`B000` is taken. -/
def startIdFor (blocks : List Block) : String :=
  if (blocks.map (·.BlockId)).contains "B000" then "B999" else "B000"

/-- The blocks the repair stage connects from the new Start: those with no
incoming edge — except any block whose id coincides with the chosen Start
id. -/
def noIncomingEntryIds (blocks : List Block) (edges : List Edge) (sid : String) :
    List String :=
  (blocks.filter (fun b =>
    b.BlockId ≠ sid ∧ ¬ (edges.map (·.To)).contains b.BlockId)).map (·.BlockId)

/-- The edges the repair stage appends: one per entry block, ids continuing
from `n0`. -/
def specStartEdges (sid : String) (n0 : Nat) : List String → List Edge
  | [] => []
  | bid :: rest =>
    { EdgeID := formatEdgeId (n0 + 1), From := sid, To := bid }
      :: specStartEdges sid (n0 + 1) rest

/-- A block that had taken id `B000` before the repair stage runs. -/
def bTookB000 : Block := { BlockId := "B000", Name := "X", ActionCode := "ExportConfigurations" }

/-- A block that had taken id `B999` before the repair stage runs. -/
def bTookB999 : Block := { BlockId := "B999", Name := "Y", ActionCode := "NotifyUser" }

/-- C7 counterexample: with no Start block, and both `B000` and `B999`
already used as block ids, the inserted Start reuses id `B999`; block `Y`
(id `B999`) has no incoming edge, yet no edge to it is added — the filter
excludes any block sharing the Start id — refuting "one new edge from that
Start block to every block that had no incoming edge". -/
theorem C7_no_edge_to_block_sharing_start_id :
    (∀ b ∈ [bTookB000, bTookB999], b.ActionCode ≠ "Start") ∧
    (ensure_start_block [bTookB000, bTookB999] []).2.1
      = [{ EdgeID := "E001", From := "B999", To := "B000" }] ∧
    ¬ ∃ e ∈ (ensure_start_block [bTookB000, bTookB999] []).2.1, e.To = "B999" := by
  refine ⟨by decide, rfl, by decide⟩

/-- The edge-appending fold of `_ensure_start_block` agrees with the
recursive description. -/
theorem start_fold_eq_spec (ids : List String) (sid : String) (es : List Edge)
    (n : Nat) :
    (ids.foldl (fun (acc : List Edge × Nat) bid =>
      (acc.1 ++ [{ EdgeID := formatEdgeId (acc.2 + 1), From := sid, To := bid }],
       acc.2 + 1)) (es, n)).1
      = es ++ specStartEdges sid n ids := by
  induction ids generalizing es n with
  | nil => simp [specStartEdges]
  | cons b t ih =>
    rw [List.foldl_cons]
    beta_reduce
    rw [ih]
    simp [specStartEdges]

/-- Scenario S5's first block. -/
def bS5a : Block :=
  { BlockId := "B002", Name := "ExportConfigurations", ActionCode := "ExportConfigurations" }

/-- Scenario S5's second block. -/
def bS5b : Block :=
  { BlockId := "B003", Name := "NotifyUser", ActionCode := "NotifyUser" }

/-- Scenario S5's input workflow: two blocks, one edge, no Start. -/
def wS5 : Workflow :=
  { workflow_json := [bS5a, bS5b]
    edges := [{ EdgeID := "E001", From := "B002", To := "B003" }] }

/-- Scenario S5's expected corrected workflow. -/
def wS5corrected : Workflow :=
  { workflow_json :=
      [{ BlockId := "B000", Name := "Start", ActionCode := "Start" }, bS5a, bS5b]
    edges :=
      [{ EdgeID := "E001", From := "B002", To := "B003" },
       { EdgeID := "E002", From := "B000", To := "B002" }] }

/-- C7 as amended: when no Start block exists, `_ensure_start_block`
prepends a Start block with id `B000` (or `B999` when `B000` is taken) and
appends one new edge from it to every block that had no incoming edge and
does not share the chosen Start id, with edge ids `E{n:03d}` continuing
from the maximum observed; on scenario S5 the full edge-connection stage
prepends `B000` and adds exactly the edge `B000 → B002`. -/
theorem C7_ensure_start_block_amended (blocks : List Block) (edges : List Edge)
    (hno : ∀ b ∈ blocks, b.ActionCode ≠ "Start") :
    (ensure_start_block blocks edges).1
      = { BlockId := startIdFor blocks, Name := "Start", ActionCode := "Start" } :: blocks ∧
    (ensure_start_block blocks edges).2.1
      = edges ++ specStartEdges (startIdFor blocks) (maxEdgeNum edges)
          (noIncomingEntryIds blocks edges (startIdFor blocks)) ∧
    (ensure_start_block blocks edges).2.2
      = ["Start block was missing — added automatically"] ∧
    edge_connection_validate wS5
      = { errors := [], warnings := ["Start block was missing — added automatically"],
          corrected_workflow := some wS5corrected } := by
  have hany : blocks.any (fun b => b.ActionCode == "Start") = false := by
    rw [List.any_eq_false]
    intro b hb
    simpa using hno b hb
  have hstart : (ensure_start_block blocks edges)
      = ({ BlockId := startIdFor blocks, Name := "Start", ActionCode := "Start" } :: blocks,
         edges ++ specStartEdges (startIdFor blocks) (maxEdgeNum edges)
           (noIncomingEntryIds blocks edges (startIdFor blocks)),
         ["Start block was missing — added automatically"]) := by
    unfold ensure_start_block
    rw [hany]
    simp only [Bool.false_eq_true, if_false]
    have hfilter :
        (({ BlockId := startIdFor blocks, Name := "Start", ActionCode := "Start",
            Inputs := [], Outputs := [] } : Block) :: blocks).filter
          (fun b => b.BlockId ≠ startIdFor blocks
            ∧ ¬ (edges.map (·.To)).contains b.BlockId)
        = blocks.filter (fun b => b.BlockId ≠ startIdFor blocks
            ∧ ¬ (edges.map (·.To)).contains b.BlockId) := by
      rw [List.filter_cons]
      simp
    rw [show (if (blocks.map (·.BlockId)).contains "B000" = true then "B999" else "B000")
        = startIdFor blocks from rfl]
    rw [hfilter, start_fold_eq_spec]
    rfl
  exact ⟨by rw [hstart], by rw [hstart], by rw [hstart], by decide⟩

/-- C7 witness: the amended characterization applied to scenario S5 — the
Start block is prepended under id `B000`. -/
theorem C7_ensure_start_block_amended_witness :
    (ensure_start_block wS5.workflow_json wS5.edges).1
      = { BlockId := "B000", Name := "Start", ActionCode := "Start" } :: wS5.workflow_json := by
  have h := C7_ensure_start_block_amended wS5.workflow_json wS5.edges (by decide)
  exact h.1

end ReasoningEngine
